import Mathlib

/-!
Verification development for the `aio_lambda_api` serverless dispatch engine.

The Python sources are shallowly embedded: pure fragments become Lean
functions, Python exceptions become `Except` values, Python `dict`s become
association lists, and Python JSON values become the `JSONValue` inductive.
External collaborators (the JSON codec, the logging library, the HTTP
status-message table) are modelled from the specification where their code is
not part of the repository; each such definition is marked in its doc comment.
-/

namespace AioLambdaApi

/-! ## JSON data model

Python objects decoded from JSON payloads (`dict`, `list`, `str`, numbers,
booleans, `None`).  Numbers keep their source lexeme: no claim computes with
numeric values. -/

inductive JSONValue where
  | null
  | bool (b : Bool)
  | num (lexeme : String)
  | str (s : String)
  | arr (elems : List JSONValue)
  | obj (fields : List (String × JSONValue))

/-- A Python `dict` with string keys, as an association list (first match wins,
duplicate keys never arise on the paths modelled here). -/
abbrev Dict := List (String × JSONValue)

/-- `d[k]` lookup (`None`-free: missing key gives `none`, the caller decides
whether that is a `KeyError`). -/
def dictGet {α : Type} (d : List (String × α)) (k : String) : Option α :=
  match d with
  | [] => none
  | (k', v) :: rest => if k' = k then some v else dictGet rest k

/-- `d[k] = v`: replace in place when the key exists (Python keeps the original
insertion position), append otherwise. -/
def dictSet {α : Type} (d : List (String × α)) (k : String) (v : α) :
    List (String × α) :=
  match d with
  | [] => [(k, v)]
  | (k', v') :: rest =>
      if k' = k then (k', v) :: rest else (k', v') :: dictSet rest k v

/-- `d.pop(k)` (the removal part): drop the first binding of `k`. -/
def dictPop {α : Type} (d : List (String × α)) (k : String) :
    List (String × α) :=
  match d with
  | [] => []
  | (k', v') :: rest => if k' = k then rest else (k', v') :: dictPop rest k

/-- Python truthiness of a JSON-decoded value. -/
def truthy : JSONValue → Bool
  | .null => false
  | .bool b => b
  | .num lexeme => !(lexeme = "0" || lexeme = "0.0" || lexeme = "-0")
  | .str s => s ≠ ""
  | .arr elems => !elems.isEmpty
  | .obj fields => !fields.isEmpty

/-! ## JSON codec (`aio_lambda_api/json.py`)

Modelled from the spec: the JSON encoding library (`orjson` / stdlib `json`)
is an external collaborator declared out of scope; `loads` is embedded as an
executable recursive-descent JSON parser (failure = `JSONDecodeError`), and
`dumps` as a standard JSON serializer. -/

/-- Skip JSON whitespace. -/
def skipWs : List Char → List Char
  | [] => []
  | c :: rest =>
      if c = ' ' ∨ c = '\t' ∨ c = '\n' ∨ c = Char.ofNat 13 then skipWs rest
      else c :: rest

/-- Value of one hexadecimal digit. -/
def hexVal (c : Char) : Option Nat :=
  if c.isDigit then some (c.toNat - 48)
  else if 'a' ≤ c ∧ c ≤ 'f' then some (c.toNat - 87)
  else if 'A' ≤ c ∧ c ≤ 'F' then some (c.toNat - 55)
  else none

/-- Decode one single-character JSON string escape. -/
def escDecode (c : Char) : Option Char :=
  if c = '"' then some '"'
  else if c = '\\' then some '\\'
  else if c = '/' then some '/'
  else if c = 'b' then some (Char.ofNat 8)
  else if c = 'f' then some (Char.ofNat 12)
  else if c = 'n' then some '\n'
  else if c = 'r' then some (Char.ofNat 13)
  else if c = 't' then some '\t'
  else none

/-- Parse the remainder of a JSON string literal (the opening quote already
consumed): returns the decoded characters and the input after the closing
quote. -/
def parseStringRest : List Char → Option (List Char × List Char)
  | [] => none
  | '"' :: rest => some ([], rest)
  | '\\' :: c :: rest =>
      if c = 'u' then
        match rest with
        | h1 :: h2 :: h3 :: h4 :: rest2 =>
            match hexVal h1, hexVal h2, hexVal h3, hexVal h4 with
            | some a, some b, some c2, some d =>
                (parseStringRest rest2).map fun p =>
                  (Char.ofNat (((a * 16 + b) * 16 + c2) * 16 + d) :: p.1, p.2)
            | _, _, _, _ => none
        | _ => none
      else
        match escDecode c with
        | some e => (parseStringRest rest).map fun p => (e :: p.1, p.2)
        | none => none
  | c :: rest => (parseStringRest rest).map fun p => (c :: p.1, p.2)

/-- Take the maximal run of characters that can occur in a JSON number
lexeme. -/
def spanNum : List Char → List Char × List Char
  | [] => ([], [])
  | c :: rest =>
      if c.isDigit ∨ c = '-' ∨ c = '+' ∨ c = '.' ∨ c = 'e' ∨ c = 'E' then
        let p := spanNum rest
        (c :: p.1, p.2)
      else ([], c :: rest)

/-- What the recursive-descent parser is currently parsing: a value, the items
of a non-empty array, or the fields of a non-empty object. -/
inductive PMode where
  | value
  | items
  | fields

/-- Parser result, tagged by the mode that produced it. -/
inductive PResult where
  | val (v : JSONValue) (rest : List Char)
  | items (xs : List JSONValue) (rest : List Char)
  | fields (fs : List (String × JSONValue)) (rest : List Char)

/-- Fuelled recursive-descent JSON parser.  The fuel only bounds recursion
depth so the definition is structural (hence executable by `rfl`); `loads`
supplies more fuel than any input can consume. -/
def parseRun : Nat → PMode → List Char → Option PResult
  | 0, _, _ => none
  | fuel + 1, .value, l =>
      (match skipWs l with
       | 'n' :: 'u' :: 'l' :: 'l' :: rest => some (.val .null rest)
       | 't' :: 'r' :: 'u' :: 'e' :: rest => some (.val (.bool true) rest)
       | 'f' :: 'a' :: 'l' :: 's' :: 'e' :: rest => some (.val (.bool false) rest)
       | '"' :: rest =>
           (parseStringRest rest).map fun p => .val (.str (String.mk p.1)) p.2
       | '[' :: rest =>
           (match skipWs rest with
            | ']' :: r2 => some (.val (.arr []) r2)
            | l2 =>
                match parseRun fuel .items l2 with
                | some (.items xs r) => some (.val (.arr xs) r)
                | _ => none)
       | '{' :: rest =>
           (match skipWs rest with
            | '}' :: r2 => some (.val (.obj []) r2)
            | l2 =>
                match parseRun fuel .fields l2 with
                | some (.fields fs r) => some (.val (.obj fs) r)
                | _ => none)
       | c :: rest =>
           if c.isDigit ∨ c = '-' then
             let p := spanNum (c :: rest)
             some (.val (.num (String.mk p.1)) p.2)
           else none
       | [] => none)
  | fuel + 1, .items, l =>
      (match parseRun fuel .value l with
       | some (.val v r) =>
           (match skipWs r with
            | ',' :: r2 =>
                (match parseRun fuel .items r2 with
                 | some (.items xs r3) => some (.items (v :: xs) r3)
                 | _ => none)
            | ']' :: r2 => some (.items [v] r2)
            | _ => none)
       | _ => none)
  | fuel + 1, .fields, l =>
      (match skipWs l with
       | '"' :: rest =>
           (match parseStringRest rest with
            | some (ks, r) =>
                (match skipWs r with
                 | ':' :: r2 =>
                     (match parseRun fuel .value r2 with
                      | some (.val v r3) =>
                          (match skipWs r3 with
                           | ',' :: r4 =>
                               (match parseRun fuel .fields r4 with
                                | some (.fields fs r5) =>
                                    some (.fields ((String.mk ks, v) :: fs) r5)
                                | _ => none)
                           | '}' :: r4 => some (.fields [(String.mk ks, v)] r4)
                           | _ => none)
                      | _ => none)
                 | _ => none)
            | none => none)
       | _ => none)

/-- `loads`: decode a complete JSON document; `none` is a
`JSONDecodeError`. -/
def loads (s : String) : Option JSONValue :=
  match parseRun (2 * s.length + 2) .value s.data with
  | some (.val v rest) => if (skipWs rest).isEmpty then some v else none
  | _ => none

/-- Escape one character for a JSON string literal. -/
def escEncode (c : Char) : List Char :=
  if c = '"' then ['\\', '"']
  else if c = '\\' then ['\\', '\\']
  else if c = '\n' then ['\\', 'n']
  else if c = Char.ofNat 13 then ['\\', 'r']
  else if c = '\t' then ['\\', 't']
  else if c.toNat < 32 then
    ['\\', 'u', '0', '0',
     (if c.toNat / 16 < 10 then Char.ofNat (48 + c.toNat / 16)
      else Char.ofNat (87 + c.toNat / 16)),
     (if c.toNat % 16 < 10 then Char.ofNat (48 + c.toNat % 16)
      else Char.ofNat (87 + c.toNat % 16))]
  else [c]

/-- Serialize a string as a JSON string literal. -/
def dumpStr (s : String) : String :=
  String.mk ('"' :: s.data.flatMap escEncode ++ ['"'])

mutual

/-- `dumps`: serialize a JSON value. -/
def jsonDumps : JSONValue → String
  | .null => "null"
  | .bool b => if b then "true" else "false"
  | .num lexeme => lexeme
  | .str s => dumpStr s
  | .arr xs => "[" ++ dumpsElems xs ++ "]"
  | .obj fs => "\x7b" ++ dumpsFields fs ++ "\x7d"

/-- Comma-separated serialization of array elements. -/
def dumpsElems : List JSONValue → String
  | [] => ""
  | [x] => jsonDumps x
  | x :: y :: rest => jsonDumps x ++ "," ++ dumpsElems (y :: rest)

/-- Comma-separated serialization of object fields. -/
def dumpsFields : List (String × JSONValue) → String
  | [] => ""
  | [(k, v)] => dumpStr k ++ ":" ++ jsonDumps v
  | (k, v) :: f :: rest => dumpStr k ++ ":" ++ jsonDumps v ++ "," ++ dumpsFields (f :: rest)

end

/-- Python exceptions that the embedded fragments can raise. -/
inductive PyErr where
  | keyError
  | indexError
  | typeError
  | attributeError
  | jsonDecodeError
deriving DecidableEq

/-! ## Response model (`_responses.py`)

`Response` renders its content unchanged; `JSONResponse` renders it through the
JSON encoder.  The two classes are embedded as one structure tagged with a
render kind. -/

/-- Which `_render` implementation the response object carries. -/
inductive RenderKind where
  | plain
  | json
deriving DecidableEq

/-- A Python value that can sit in `Response._content` / travel as a body:
text (`str`), raw binary (`bytes`), or a JSON-decoded object. -/
inductive Content where
  | str (s : String)
  | bytes (b : List Nat)
  | jval (v : JSONValue)

/-- Class attribute `_MEDIA_TYPE` (`None` on `Response`, `application/json` on
`JSONResponse`). -/
def RenderKind.defaultMediaType : RenderKind → Option String
  | .plain => none
  | .json => some "application/json"

/-- The mutable state of a `Response` object. -/
structure Response where
  kind : RenderKind
  content : Option Content
  status_code : Nat
  headers : List (String × String)
  media_type : Option String

/-- The `status_code` property setter: storing 200 while `_content is None`
stores 204 instead.  (The mirror write into the ambient log event is a side
effect on the external logging collaborator and is not part of the response
state.) -/
def Response.setStatusCode (r : Response) (value : Nat) : Response :=
  let value := if r.content.isNone ∧ value = 200 then 204 else value
  { r with status_code := value }

/-- The `content` property setter: storing a non-`None` content while the
stored status is 204 upgrades the status to 200. -/
def Response.setContent (r : Response) (value : Option Content) : Response :=
  let r := { r with content := value }
  if value.isSome ∧ r.status_code = 204 then { r with status_code := 200 } else r

/-- `Response.__init__`: content and media type are stored first, then the
status goes through the `status_code` setter (so `200` with no content becomes
`204`).  The `x-request-id` header injected from the ambient log context is an
external-collaborator effect, modelled as the headers given by the caller. -/
def Response.init (kind : RenderKind) (content : Option Content)
    (status_code : Nat) (headers : List (String × String))
    (media_type : Option String) : Response :=
  let r : Response :=
    { kind := kind
      content := content
      status_code := 0
      headers := headers
      media_type :=
        match media_type with
        | some m => some m
        | none => kind.defaultMediaType }
  r.setStatusCode status_code

/-! ## Request model (`_requests.py`) -/

/-- The state of a base `Request` object.  `body` is the `_body` slot
(`bytes | unset`, modelled as UTF-8 text since every embedded code path feeds
it text). -/
structure Request where
  path : String
  method : String
  headers : List (String × JSONValue)
  body : Option String
  raises_exceptions : Bool

/-- `str.lower()` (ASCII is all the header keys use). -/
def lowerStr (s : String) : String :=
  String.mk (s.data.map Char.toLower)

/-- `Request.__init__`: header keys are lower-cased on construction. -/
def Request.init (path method : String) (headers : List (String × JSONValue))
    (body : Option String) (raises_exceptions : Bool) : Request :=
  { path := path
    method := method
    headers := headers.map fun kv => (lowerStr kv.1, kv.2)
    body := body
    raises_exceptions := raises_exceptions }

/-- The value cached in `Request._json` by `Request.json()`: Python `None`
(no body), a decoded JSON value, or — when `loads` raised
`JSONDecodeError` — the raw body passed through unchanged. -/
inductive BodyJson where
  | pyNone
  | decoded (v : JSONValue)
  | raw (b : String)

/-- `Request.json()`: `body()` is `None` ⇒ `None`; otherwise try `loads`,
and on `JSONDecodeError` the `except: pass` leaves the raw body as the
result. -/
def Request.json (r : Request) : BodyJson :=
  match r.body with
  | none => .pyNone
  | some b =>
      match loads b with
      | some v => .decoded v
      | none => .raw b

/-! ## Exceptions (`exceptions.py`) -/

/-- `HTTPException` state.  `detail` / `error_detail_priv` are the
`_detail` / `_error_detail` slots; the values carried on the modelled paths
are JSON-representable. -/
structure HTTPException where
  status_code : Nat
  detail : Option JSONValue
  exc_headers : Option (List (String × JSONValue))
  error_detail_priv : Option JSONValue

/-- `HTTPException.__init__` (the `int(status_code)` conversion is the
identity on `Nat`). -/
def HTTPException.init (status_code : Nat) (detail : Option JSONValue)
    (exc_headers : Option (List (String × JSONValue)))
    (error_detail_priv : Option JSONValue) : HTTPException :=
  { status_code := status_code
    detail := detail
    exc_headers := exc_headers
    error_detail_priv := error_detail_priv }

/-- Python `str()` of a JSON-decoded value, as far as the claims observe it
(its output is only stored into log fields no claim inspects). -/
def pyStr : JSONValue → String
  | .str s => s
  | v => jsonDumps v

/-- The `error_detail` property: the internal detail when truthy, else the
caller-visible detail when truthy, else `None`. -/
def HTTPException.error_detail (e : HTTPException) : Option String :=
  match e.error_detail_priv with
  | some v => if truthy v then some (pyStr v) else fallbackDetail e
  | none => fallbackDetail e
where
  fallbackDetail (e : HTTPException) : Option String :=
    match e.detail with
    | some v => if truthy v then some (pyStr v) else none
    | none => none

/-- An arbitrary Python exception that is neither an `HTTPException` nor a
`ValidationError` (an unhandled fault). -/
structure PyException where
  exc_name : String
  message : String
deriving DecidableEq

/-! ## Logging collaborator (jhalog)

Modelled from the spec: the log scope opened around each dispatch attempt
exposes mutable `status_code` and `error_detail` fields and a pluggable
exception-to-status classifier (default 500). -/

/-- The per-request log scope state the dispatcher mutates. -/
structure LogEvent where
  status_code : Option Nat
  error_detail : Option JSONValue

/-- Modelled from the spec: the default entry of the pluggable
exception-to-(status, message) classifier table of the logging collaborator:
any unclassified exception maps to status 500. -/
def defaultClassifier (_ : PyException) : Nat × Option JSONValue :=
  (500, some (.str "Internal Server Error"))

/-! ## Route table and dispatcher (`_core.py`) -/

/-- Injectable-parameter capability: the declared annotation is the `Request`
or the `Response` class. -/
inductive ParamKind where
  | request
  | response
deriving DecidableEq

/-- `_APIRoute`: handler descriptor.  The callable is identified by an opaque
numeric id. -/
structure APIRoute where
  func : Nat
  status_code : Nat
  params : List (String × ParamKind)
deriving DecidableEq

/-- `Handler._routes`: dict from path to dict from method to route. -/
abbrev Routes := List (String × List (String × APIRoute))

/-- The registration part of `Handler._api_route`: create the per-path dict if
missing; registering an already-present (path, method) raises `ValueError`
(`none`). -/
def api_route (routes : Routes) (path method : String) (route : APIRoute) :
    Option Routes :=
  let path_routes :=
    match dictGet routes path with
    | some pr => pr
    | none => []
  match dictGet path_routes method with
  | some _ => none
  | none => some (dictSet routes path (dictSet path_routes method route))

/-- The routing part of `Handler._prepare_request`: missing path raises
`HTTPException(404)`, missing method under a present path raises
`HTTPException(405)`. -/
def lookupRoute (routes : Routes) (path method : String) :
    Except HTTPException APIRoute :=
  match dictGet routes path with
  | none => .error (HTTPException.init 404 none none none)
  | some path_routes =>
      match dictGet path_routes method with
      | none => .error (HTTPException.init 405 none none none)
      | some route => .ok route

/-- What the guarded body of `Handler._handle_request` (route lookup, argument
binding, handler invocation, result interpretation) came back with: a
response, or one of the three exception classes the handler distinguishes. -/
inductive RouteOutcome where
  | ok (resp : Response)
  | httpError (e : HTTPException)
  | validationError (errors : JSONValue)
  | fault (exc : PyException)

/-- `JSONResponse(...)` as `_core.py` constructs it (no headers argument). -/
def mkJSONResponse (content : Option Content) (status_code : Nat) : Response :=
  Response.init .json content status_code [] none

/-- `Handler._handle_request`: the exception-handling scaffold around one
dispatch attempt.  `classify` is the logging collaborator's
`status_code_from_exception`.  Returns the Python outcome (a response, or a
re-raised exception) together with the final state of the log scope; log
fields that the source sets through the ambient log context (response status
writes) are written here explicitly. -/
def handle_request (classify : PyException → Nat × Option JSONValue)
    (request : Request) (attempt : RouteOutcome) :
    Except PyException Response × LogEvent :=
  match attempt with
  | .ok resp =>
      (.ok resp, { status_code := some resp.status_code, error_detail := none })
  | .httpError e =>
      let event : LogEvent :=
        { status_code := some e.status_code
          error_detail := (e.error_detail).map .str }
      let resp := mkJSONResponse
        (match e.detail with
         | none => none
         | some d => some (.jval (.obj [("detail", d)])))
        e.status_code
      (.ok resp, event)
  | .validationError errors =>
      let event : LogEvent :=
        { status_code := some 422, error_detail := some errors }
      (.ok (mkJSONResponse (some (.jval (.obj [("detail", errors)]))) 422), event)
  | .fault exc =>
      let sm := classify exc
      let event : LogEvent :=
        { status_code := some sm.1, error_detail := sm.2 }
      let response := mkJSONResponse (sm.2.map .jval) sm.1
      if request.raises_exceptions then (.error exc, event)
      else (.ok response, event)

/-! ## Concurrent batch fan-out (`Handler._handle_requests`)

`asyncio.gather` schedules one task per request; tasks may complete in any
order (cooperative interleaving), and gather stores each task's result in the
slot of its input index.  The completion order is modelled as an explicit
schedule: a permutation of the task indices. -/

/-- One task completion: task `i` stores its result in slot `i`. -/
def schedStep {α β : Type} (handle : α → β) (reqs : List α)
    (slots : List (Option β)) (i : Nat) : List (Option β) :=
  slots.set i ((reqs.get? i).map handle)

/-- Run every completion of the schedule, starting from all-empty slots. -/
def runSchedule {α β : Type} (handle : α → β) (reqs : List α)
    (schedule : List Nat) : List (Option β) :=
  schedule.foldl (schedStep handle reqs) (List.replicate reqs.length none)

/-- gather's final collection: every slot must be filled. -/
def collectSlots {β : Type} : List (Option β) → Option (List β)
  | [] => some []
  | some x :: rest => (collectSlots rest).map fun tail => x :: tail
  | none :: _ => none

/-- `Handler._handle_requests` under an explicit completion schedule. -/
def handle_requests {α β : Type} (handle : α → β) (reqs : List α)
    (schedule : List Nat) : Option (List β) :=
  collectSlots (runSchedule handle reqs schedule)

/-- The batch arm of `Handler.__acall__`: the `zip` of the gathered responses
with the parsed requests — exactly the (response, request) pairs handed to the
backend's `serialize_responses`. -/
def acall_pairs {α β : Type} (handle : α → β) (reqs : List α)
    (schedule : List Nat) : Option (List (β × α)) :=
  (handle_requests handle reqs schedule).map fun resps => resps.zip reqs

/-! ## Rendering a response body (`Response.body`)

`Response._render` is the identity; `JSONResponse._render` is `dumps`. -/

/-- Modelled from the spec: the status-code-to-message table of the (absent
from `src/`) `status` module used to synthesize an error detail. -/
def get_status_message (status : Nat) : String :=
  if status = 400 then "Bad Request"
  else if status = 401 then "Unauthorized"
  else if status = 403 then "Forbidden"
  else if status = 404 then "Not Found"
  else if status = 405 then "Method Not Allowed"
  else if status = 408 then "Request Timeout"
  else if status = 422 then "Unprocessable Entity"
  else if status = 500 then "Internal Server Error"
  else if status = 504 then "Gateway Timeout"
  else "Unknown"

/-- `self._render(content)`: identity for `Response`, `dumps` for
`JSONResponse` (raw bytes are not JSON-serializable: `TypeError`). -/
def renderOne : RenderKind → Content → Except PyErr Content
  | .plain, c => .ok c
  | .json, .str s => .ok (.str (jsonDumps (.str s)))
  | .json, .jval v => .ok (.str (jsonDumps v))
  | .json, .bytes _ => .error .typeError

/-- Python `len()` of a rendered body (sized values only). -/
def pyLen : Content → Except PyErr Nat
  | .str s => .ok s.length
  | .bytes b => .ok b.length
  | .jval (.str s) => .ok s.length
  | .jval (.arr xs) => .ok xs.length
  | .jval (.obj fs) => .ok fs.length
  | .jval _ => .error .typeError

/-- Assignment into the string-valued headers dict of a response. -/
def setHeader (hs : List (String × String)) (k v : String) :
    List (String × String) :=
  dictSet hs k v

/-- `Response.body()`: synthesize a `detail` message when the content is
absent and the status is an error (written straight into `_content`, not
through the setter), render, and update the `content-length` /
`content-type` headers.  Returns the rendered body and the updated response
object. -/
def Response.bodyStep (r : Response) : Except PyErr (Option Content × Response) :=
  let synthesized : Content :=
    .jval (.obj [("detail", .str (get_status_message r.status_code))])
  let r :=
    if r.content.isNone ∧ 400 ≤ r.status_code then
      { r with content := some synthesized }
    else r
  match r.content with
  | none => .ok (none, r)
  | some c => do
      let body ← renderOne r.kind c
      let n ← pyLen body
      let hdrs := setHeader r.headers "content-length" (toString n)
      let hdrs :=
        match r.media_type with
        | some m => setHeader hdrs "content-type" m
        | none => hdrs
      .ok (some body, { r with content := some c, headers := hdrs })

/-! ## Base64 (stdlib `base64.b64encode` / `b64decode`)

Modelled from the spec: the binary-encoding reversed when checking the
round-trip property.  Bytes are naturals below 256. -/

/-- The base64 alphabet. -/
def sextetToChar (n : Nat) : Char :=
  if n < 26 then Char.ofNat (65 + n)
  else if n < 52 then Char.ofNat (97 + (n - 26))
  else if n < 62 then Char.ofNat (48 + (n - 52))
  else if n = 62 then '+'
  else '/'

/-- Inverse of the base64 alphabet. -/
def charToSextet (c : Char) : Option Nat :=
  if 'A' ≤ c ∧ c ≤ 'Z' then some (c.toNat - 65)
  else if 'a' ≤ c ∧ c ≤ 'z' then some (c.toNat - 97 + 26)
  else if '0' ≤ c ∧ c ≤ '9' then some (c.toNat - 48 + 52)
  else if c = '+' then some 62
  else if c = '/' then some 63
  else none

/-- `base64.b64encode`, three input bytes per four output characters. -/
def b64encode : List Nat → List Char
  | [] => []
  | [a] => [sextetToChar (a / 4), sextetToChar (a % 4 * 16), '=', '=']
  | [a, b] =>
      [sextetToChar (a / 4), sextetToChar (a % 4 * 16 + b / 16),
       sextetToChar (b % 16 * 4), '=']
  | a :: b :: c :: rest =>
      sextetToChar (a / 4) :: sextetToChar (a % 4 * 16 + b / 16) ::
        sextetToChar (b % 16 * 4 + c / 64) :: sextetToChar (c % 64) ::
        b64encode rest

/-- `base64.b64decode` (padding only at the end of the input). -/
def b64decode : List Char → Option (List Nat)
  | [] => some []
  | c1 :: c2 :: c3 :: c4 :: rest =>
      (match charToSextet c1, charToSextet c2 with
       | some s1, some s2 =>
           if c3 = '=' then
             if c4 = '=' ∧ rest = [] then some [s1 * 4 + s2 / 16] else none
           else
             (match charToSextet c3 with
              | some s3 =>
                  if c4 = '=' then
                    if rest = [] then
                      some [s1 * 4 + s2 / 16, s2 % 16 * 16 + s3 / 4]
                    else none
                  else
                    (match charToSextet c4 with
                     | some s4 =>
                         (b64decode rest).map fun tail =>
                           (s1 * 4 + s2 / 16) :: (s2 % 16 * 16 + s3 / 4) ::
                             (s3 % 4 * 64 + s4) :: tail
                     | none => none)
              | none => none)
       | _, _ => none)
  | _ => none

/-- `b64encode(body).decode()`: the textual form placed in the envelope. -/
def b64encodeStr (b : List Nat) : String :=
  String.mk (b64encode b)

/-- Decoding the envelope body back to bytes. -/
def b64decodeStr (s : String) : Option (List Nat) :=
  b64decode s.data

/-! ## AWS Lambda backend (`_backends/aws_lambda.py`) -/

/-- `d[k]` with `KeyError` on a missing key. -/
def getKey (d : Dict) (k : String) : Except PyErr JSONValue :=
  match dictGet d k with
  | some v => .ok v
  | none => .error .keyError

/-- The value must be a JSON object (Python would raise on the subsequent
subscript or attribute access otherwise). -/
def asObj : JSONValue → Except PyErr Dict
  | .obj fs => .ok fs
  | _ => .error .typeError

/-- The value must be a string. -/
def asStr : JSONValue → Except PyErr String
  | .str s => .ok s
  | _ => .error .typeError

/-- The value must be a list. -/
def asArr : JSONValue → Except PyErr (List JSONValue)
  | .arr xs => .ok xs
  | _ => .error .typeError

/-- Split a character list at its first colon. -/
def splitOnceColon : List Char → Option (List Char × List Char)
  | [] => none
  | c :: rest =>
      if c = ':' then some ([], rest)
      else (splitOnceColon rest).map fun p => (c :: p.1, p.2)

/-- `s.split(':', 1)[1]`: everything after the first colon (`IndexError` when
there is none). -/
def splitTail (s : String) : Except PyErr String :=
  match splitOnceColon s.data with
  | some p => .ok (String.mk p.2)
  | none => .error .indexError

/-- A Python list comprehension over fallible per-element work: the first
raised exception propagates. -/
def mapExc {α β : Type} (f : α → Except PyErr β) : List α → Except PyErr (List β)
  | [] => .ok []
  | x :: xs => do
      let y ← f x
      let ys ← mapExc f xs
      pure (y :: ys)

/-- An AWS Lambda request: the base request plus the stored `event` dict. -/
structure AWSRequest where
  base : Request
  event : Dict

/-- `loads` with `JSONDecodeError` raised (uncaught by the record parsers). -/
def loadsExc (s : String) : Except PyErr JSONValue :=
  match loads s with
  | some v => .ok v
  | none => .error .jsonDecodeError

/-- The method/path extraction of `aws_lambda.Request.__init__`: the API
Gateway HTTP API `http` sub-dict when present (`try`), else the REST API
fields (`except KeyError`). -/
def requestContextMethodPath (rc : Dict) : Except PyErr (String × String) :=
  match dictGet rc "http" with
  | some h => do
      let hobj ← asObj h
      let m ← getKey hobj "method" >>= asStr
      let p ← getKey hobj "path" >>= asStr
      pure (m, p)
  | none => do
      let m ← getKey rc "httpMethod" >>= asStr
      let p ← getKey rc "path" >>= asStr
      pure (m, p)

/-- The headers taken from `event.get("headers") or dict()`, with
`x-request-id` defaulted (`setdefault`) from the request context's
`requestId` when that exists. -/
def eventHeaders (rc hfields : Dict) : Dict :=
  match dictGet rc "requestId" with
  | some rid =>
      if (dictGet hfields "x-request-id").isSome then hfields
      else hfields ++ [("x-request-id", rid)]
  | none => hfields

/-- `aws_lambda.Request.__init__`: method and path from
`event["requestContext"]`, headers from `event.get("headers") or dict()` with
the `x-request-id` default applied, then the base `Request` constructor. -/
def AWSRequest.init (event : Dict) (raises_exceptions : Bool) :
    Except PyErr AWSRequest := do
  let rc ← getKey event "requestContext" >>= asObj
  let mp ← requestContextMethodPath rc
  let hfields ← asObj
    (match dictGet event "headers" with
     | some v => if truthy v then v else .obj []
     | none => .obj [])
  pure { base := Request.init mp.2 mp.1 (eventHeaders rc hfields) none
           raises_exceptions
         event := event }

/-- The per-record request construction inside `Backend.parse_request`'s list
comprehension: `raises_exceptions` is the truthiness of the record event's
`eventRaisesExceptions` entry, defaulting to `True`. -/
def requestOfRecordEvent (record_event : Dict) : Except PyErr AWSRequest :=
  AWSRequest.init record_event
    (match dictGet record_event "eventRaisesExceptions" with
     | some v => truthy v
     | none => true)

/-- One record of `Backend._parse_event_sqs`: decode the record's `body`,
then tag it with `eventSource`, `eventData` (the record without its body) and
`eventRaisesExceptions = False`. -/
def sqsRecordEvent (record : JSONValue) : Except PyErr Dict := do
  let robj ← asObj record
  let bodyStr ← getKey robj "body" >>= asStr
  let decoded ← loadsExc bodyStr
  let re ← asObj decoded
  pure (dictSet
    (dictSet (dictSet re "eventSource" (.str "aws:sqs"))
      "eventData" (.obj (dictPop robj "body")))
    "eventRaisesExceptions" (.bool false))

/-- `Backend._parse_event_sqs` over `event["Records"]`. -/
def parse_event_sqs (event : Dict) : Except PyErr (List Dict) := do
  let records ← getKey event "Records" >>= asArr
  mapExc sqsRecordEvent records

/-- One record of `Backend._parse_event_sns`: decode the notification's
`Message`; no `eventRaisesExceptions` entry is added. -/
def snsRecordEvent (record : JSONValue) : Except PyErr Dict := do
  let robj ← asObj record
  let snsObj ← getKey robj "Sns" >>= asObj
  let msgStr ← getKey snsObj "Message" >>= asStr
  let decoded ← loadsExc msgStr
  let re ← asObj decoded
  pure (dictSet (dictSet re "eventSource" (.str "aws:sns"))
    "eventData" (.obj (dictSet robj "Sns" (.obj (dictPop snsObj "Message")))))

/-- `Backend._parse_event_sns` over `event["Records"]`. -/
def parse_event_sns (event : Dict) : Except PyErr (List Dict) := do
  let records ← getKey event "Records" >>= asArr
  mapExc snsRecordEvent records

/-- One record of `Backend._parse_event_mq`: decode the message's `data`; no
`eventRaisesExceptions` entry is added. -/
def mqRecordEvent (record : JSONValue) : Except PyErr Dict := do
  let robj ← asObj record
  let dataStr ← getKey robj "data" >>= asStr
  let decoded ← loadsExc dataStr
  let re ← asObj decoded
  pure (dictSet (dictSet re "eventSource" (.str "aws:mq"))
    "eventData" (.obj (dictPop robj "data")))

/-- `Backend._parse_event_mq` over `event["messages"]`. -/
def parse_event_mq (event : Dict) : Except PyErr (List Dict) := do
  let records ← getKey event "messages" >>= asArr
  mapExc mqRecordEvent records

/-- What `Backend.parse_request` can hand to `__acall__`: one direct request
or a (possibly empty) batch. -/
inductive ParsedRequests where
  | single (r : AWSRequest)
  | batch (rs : List AWSRequest)

/-- `getattr(self, f"_parse_event_{suffix}")`: the record parser for an
event-source suffix; an unknown suffix raises `AttributeError` (uncaught
here). -/
def parseEventDispatch (event : Dict) (suffix : String) :
    Except PyErr (List Dict) :=
  match suffix with
  | "mq" => parse_event_mq event
  | "sqs" => parse_event_sqs event
  | "sns" => parse_event_sns event
  | _ => .error .attributeError

/-- The batch arm of `Backend.parse_request`: dynamic dispatch on the suffix
of the event source after the first colon. -/
def parseBatch (event : Dict) (es : JSONValue) : Except PyErr ParsedRequests := do
  let s ← asStr es
  let suffix ← splitTail s
  let recordEvents ← parseEventDispatch event suffix
  let rs ← mapExc requestOfRecordEvent recordEvents
  pure (.batch rs)

/-- The fallback lookup `event["Records"][0]["eventSource"]` with
`IndexError` and `KeyError` caught (`.ok none`): a missing or empty `Records`,
or a first record without `eventSource`, yields no event source; subscripting
a non-list or a non-dict record raises `TypeError` (uncaught). -/
def recordsEventSource (event : Dict) : Except PyErr (Option JSONValue) :=
  match dictGet event "Records" with
  | some (.arr (r0 :: _)) =>
      (match r0 with
       | .obj fs =>
           (match dictGet fs "eventSource" with
            | some es => .ok (some es)
            | none => .ok none)
       | _ => .error .typeError)
  | some (.arr []) => .ok none
  | some _ => .error .typeError
  | none => .ok none

/-- `Backend.parse_request`: a direct invocation when `requestContext` is
present; otherwise find the event source on the event or its first record (a
missing or empty `Records` yields an empty batch) and parse the batch. -/
def parse_request (event : Dict) : Except PyErr ParsedRequests :=
  if (dictGet event "requestContext").isSome then do
    let r ← AWSRequest.init event true
    pure (.single r)
  else
    match dictGet event "eventSource" with
    | some es => parseBatch event es
    | none =>
        match recordsEventSource event with
        | .ok (some es) => parseBatch event es
        | .ok none => .ok (.batch [])
        | .error e => .error e

/-- One `{itemIdentifier: ...}` entry of the failure report. -/
structure FailureItem where
  itemIdentifier : JSONValue

/-- The `{batchItemFailures: [...]}` partial-acknowledgment payload. -/
structure SQSAck where
  batchItemFailures : List FailureItem

/-- `request.event["eventData"]["messageId"]`: the correlation id the failure
report uses. -/
def messageIdOf (req : AWSRequest) : Except PyErr JSONValue := do
  let ed ← getKey req.event "eventData" >>= asObj
  getKey ed "messageId"

/-- The list comprehension of `Backend._serialize_event_sqs`: the correlation
ids of the pairs whose response status is at least 400, in batch order. -/
def failuresOf : List (Response × AWSRequest) → Except PyErr (List JSONValue)
  | [] => .ok []
  | (resp, req) :: rest =>
      if 400 ≤ resp.status_code then do
        let mid ← messageIdOf req
        let others ← failuresOf rest
        pure (mid :: others)
      else failuresOf rest

/-- `Backend._serialize_event_sqs`: a `batchItemFailures` payload when at
least one pair failed, `None` (full-batch acknowledgment) otherwise. -/
def serialize_event_sqs (resp_req : List (Response × AWSRequest)) :
    Except PyErr (Option SQSAck) := do
  let failures ← failuresOf resp_req
  let items := failures.map fun message_id => FailureItem.mk message_id
  if failures.isEmpty then pure none
  else pure (some (SQSAck.mk items))

/-- The native response envelope of a direct invocation. -/
structure Envelope where
  body : Option Content
  statusCode : String
  headers : List (String × String)
  isBase64Encoded : Bool

/-- `Backend.serialize_response`: render the body; raw binary is
base64-encoded with the flag set, anything else passes through. -/
def serialize_response (resp : Response) : Except PyErr Envelope := do
  let rendered ← resp.bodyStep
  match rendered with
  | (some (.bytes b), r2) =>
      pure { body := some (.str (b64encodeStr b))
             statusCode := toString r2.status_code
             headers := r2.headers
             isBase64Encoded := true }
  | (other, r2) =>
      pure { body := other
             statusCode := toString r2.status_code
             headers := r2.headers
             isBase64Encoded := false }

/-- `Backend.serialize_responses`: an empty batch acknowledges silently
(`IndexError` caught); otherwise dynamic dispatch on the first request's
event-source suffix — only `sqs` has a serializer, any other suffix falls
into the `AttributeError` handler and acknowledges silently. -/
def serialize_responses (resp_req : List (Response × AWSRequest)) :
    Except PyErr (Option SQSAck) :=
  match resp_req with
  | [] => .ok none
  | (_, first_req) :: _ => do
      let es ← getKey first_req.event "eventSource" >>= asStr
      let suffix ← splitTail es
      match suffix with
      | "sqs" => serialize_event_sqs resp_req
      | _ => pure none

/-! ## Statement vocabulary and concrete payloads used by the theorems -/

/-- The successful value of an embedded Python computation, when any. -/
def excOk {α : Type} : Except PyErr α → Option α
  | .ok a => some a
  | .error _ => none

/-- The `raises_exceptions` flags of a parse result, in order. -/
def batchFlags : ParsedRequests → List Bool
  | .single r => [r.base.raises_exceptions]
  | .batch rs => rs.map fun r => r.base.raises_exceptions

/-- A minimal API-Gateway-format payload (a 204 request to `GET /`), as the
JSON text embedded in batch records. -/
def gwPayload : String :=
  "\x7b\"requestContext\": \x7b\"http\": \x7b\"method\": \"GET\", \"path\": \"/\"\x7d\x7d\x7d"

/-- A one-record SNS (topic-style) batch event whose embedded message does not
set `eventRaisesExceptions`. -/
def snsOneRecordEvent : Dict :=
  [("Records", .arr
    [.obj [("messageId", .str "1"),
           ("Sns", .obj [("Message", .str gwPayload)]),
           ("eventSource", .str "aws:sns")]])]

/-- A two-record SQS (queue-style) batch event. -/
def sqsTwoRecordEvent : Dict :=
  [("Records", .arr
    [.obj [("messageId", .str "1"), ("body", .str gwPayload),
           ("eventSource", .str "aws:sqs")],
     .obj [("messageId", .str "2"), ("body", .str gwPayload),
           ("eventSource", .str "aws:sqs")]])]

/-- An SQS-batch-sourced request with a given correlation id (the shape
`requestOfRecordEvent` builds, restricted to the fields the serializers
read). -/
def sqsPairRequest (mid : String) : AWSRequest :=
  { base := Request.init "/" "GET" [] none false
    event := [("eventSource", .str "aws:sqs"),
              ("eventData", .obj [("messageId", .str mid)])] }

/-- An SNS-batch-sourced request with a given correlation id. -/
def snsPairRequest (mid : String) : AWSRequest :=
  { base := Request.init "/" "GET" [] none true
    event := [("eventSource", .str "aws:sns"),
              ("eventData", .obj [("messageId", .str mid)])] }

/-- A content-less `JSONResponse` with the given status, as `_core.py`
creates around each dispatch attempt. -/
def plainStatusResponse (status : Nat) : Response :=
  Response.init .json none status [] none

/-- An MQ (broker-style) batch-sourced request with a given correlation id. -/
def mqPairRequest (mid : String) : AWSRequest :=
  { base := Request.init "/" "GET" [] none true
    event := [("eventSource", .str "aws:mq"),
              ("eventData", .obj [("messageId", .str mid)])] }

/-- Example route descriptors. -/
def routeA : APIRoute := ⟨1, 200, []⟩

/-- Example route descriptors. -/
def routeB : APIRoute := ⟨2, 200, []⟩

/-- Example route descriptors. -/
def routeC : APIRoute := ⟨3, 201, []⟩

/-- A route table whose method set differs per path. -/
def routesNonUniform : Routes :=
  [("/", [("GET", routeA)]),
   ("/x", [("GET", routeB), ("POST", routeC)])]

/-- The dict `gwPayload` decodes to: a direct-invocation event. -/
def directEvent : Dict :=
  [("requestContext", .obj
    [("http", .obj [("method", .str "GET"), ("path", .str "/")])])]

/-- The request parsed from `directEvent`. -/
def directReq : AWSRequest :=
  { base := Request.init "/" "GET" [] none true
    event := directEvent }

/-- The first record event produced by `parse_event_sqs` on
`sqsTwoRecordEvent`. -/
def sqsRe1 : Dict :=
  [("requestContext", .obj
     [("http", .obj [("method", .str "GET"), ("path", .str "/")])]),
   ("eventSource", .str "aws:sqs"),
   ("eventData", .obj [("messageId", .str "1"),
                       ("eventSource", .str "aws:sqs")]),
   ("eventRaisesExceptions", .bool false)]

/-- The second record event produced by `parse_event_sqs` on
`sqsTwoRecordEvent`. -/
def sqsRe2 : Dict :=
  [("requestContext", .obj
     [("http", .obj [("method", .str "GET"), ("path", .str "/")])]),
   ("eventSource", .str "aws:sqs"),
   ("eventData", .obj [("messageId", .str "2"),
                       ("eventSource", .str "aws:sqs")]),
   ("eventRaisesExceptions", .bool false)]

/-- The request built from `sqsRe1`. -/
def sqsReq1 : AWSRequest :=
  { base := Request.init "/" "GET" [] none false
    event := sqsRe1 }

/-- The raw SNS record of `snsOneRecordEvent`. -/
def snsRecord1 : Dict :=
  [("messageId", .str "1"),
   ("Sns", .obj [("Message", .str gwPayload)]),
   ("eventSource", .str "aws:sns")]

/-- The record event produced by `parse_event_sns` on `snsOneRecordEvent`. -/
def snsRe1 : Dict :=
  [("requestContext", .obj
     [("http", .obj [("method", .str "GET"), ("path", .str "/")])]),
   ("eventSource", .str "aws:sns"),
   ("eventData", .obj [("messageId", .str "1"),
                       ("Sns", .obj []),
                       ("eventSource", .str "aws:sns")])]

/-- The request built from `snsRe1`. -/
def snsReq1 : AWSRequest :=
  { base := Request.init "/" "GET" [] none true
    event := snsRe1 }

/-- A binary-content response (the bytes of "test", octet-stream media). -/
def binResp : Response :=
  Response.init .plain (some (.bytes [116, 101, 115, 116])) 200 []
    (some "application/octet-stream")

/-- `binResp` after `body()` updated its headers. -/
def binRespRendered : Response :=
  { kind := .plain
    content := some (.bytes [116, 101, 115, 116])
    status_code := 200
    headers := [("content-length", "4"),
                ("content-type", "application/octet-stream")]
    media_type := some "application/octet-stream" }

/-- A textual-content response. -/
def strResp : Response :=
  Response.init .plain (some (.str "hello")) 200 [] none

/-- `strResp` after `body()` updated its headers. -/
def strRespRendered : Response :=
  { kind := .plain
    content := some (.str "hello")
    status_code := 200
    headers := [("content-length", "5")]
    media_type := none }

/-! ## Helper lemmas -/

theorem dictGet_dictSet_self {α : Type} (d : List (String × α)) (k : String)
    (v : α) : dictGet (dictSet d k v) k = some v := by
  induction d with
  | nil => simp [dictGet, dictSet]
  | cons p rest ih =>
      by_cases h : p.1 = k
      · simp [dictGet, dictSet, h]
      · simpa [dictGet, dictSet, h] using ih

theorem dictGet_dictSet_ne {α : Type} (d : List (String × α)) (k k' : String)
    (v : α) (h : k ≠ k') : dictGet (dictSet d k v) k' = dictGet d k' := by
  induction d with
  | nil => simp [dictGet, dictSet, h]
  | cons p rest ih =>
      by_cases hp : p.1 = k
      · simp [dictGet, dictSet, hp, h]
      · by_cases hp' : p.1 = k'
        · simp [dictGet, dictSet, hp, hp', Ne.symm h]
        · simpa [dictGet, dictSet, hp, hp'] using ih

theorem dictGet_eq_none_iff {α : Type} (d : List (String × α)) (k : String) :
    dictGet d k = none ↔ ∀ p ∈ d, p.1 ≠ k := by
  induction d with
  | nil => simp [dictGet]
  | cons p rest ih =>
      by_cases h : p.1 = k
      · simp [dictGet, h]
      · simp [dictGet, h, ih]

theorem dictGet_of_mem {α : Type} (d : List (String × α))
    (hnd : (d.map Prod.fst).Nodup) (k : String) (v : α) (hm : (k, v) ∈ d) :
    dictGet d k = some v := by
  induction d with
  | nil => cases hm
  | cons p rest ih =>
      rcases List.mem_cons.mp hm with h | h
      · subst h; simp [dictGet]
      · have hk : p.1 ≠ k := by
          intro hkk
          have : p.1 ∈ rest.map Prod.fst :=
            List.mem_map.mpr ⟨(k, v), h, by simp [hkk]⟩
          exact (List.nodup_cons.mp hnd).1 this
        simpa [dictGet, hk] using ih (List.nodup_cons.mp hnd).2 h

theorem mapExc_ok_mem {α β : Type} (f : α → Except PyErr β) (xs : List α)
    (ys : List β) (h : mapExc f xs = .ok ys) :
    ∀ y ∈ ys, ∃ x ∈ xs, f x = .ok y := by
  induction xs generalizing ys with
  | nil =>
      simp only [mapExc] at h
      cases h
      intro y hy
      cases hy
  | cons x xs ih =>
      simp only [mapExc, bind, Except.bind] at h
      cases hfx : f x with
      | error e => rw [hfx] at h; cases h
      | ok y0 =>
          rw [hfx] at h
          cases hrest : mapExc f xs with
          | error e => rw [hrest] at h; cases h
          | ok ys0 =>
              rw [hrest] at h
              simp only [pure, Except.pure, Except.ok.injEq] at h
              subst h
              intro y hy
              rcases List.mem_cons.mp hy with rfl | hmem
              · exact ⟨x, List.mem_cons_self x xs, hfx⟩
              · obtain ⟨x', hx', hfx'⟩ := ih ys0 hrest y hmem
                exact ⟨x', List.mem_cons_of_mem x hx', hfx'⟩

/-! ## Claim theorems -/

/-- C10: serializing an empty batch of result pairs acknowledges silently
(`None`) before any trigger kind is inspected: the `IndexError` on the first
pair is caught and `None` returned. -/
theorem serialize_responses_empty_batch : serialize_responses [] = .ok none := rfl

/-- C6: setting status 200 while the content is absent stores 204; setting a
non-absent content while the stored status is 204 upgrades the status to 200
(and stores the content); in particular a content-less response constructed
with the default status 200 carries 204, and subsequently assigning non-absent
content upgrades it back to 200. -/
theorem response_status_content_coupling (r : Response) (c : Content)
    (hs : List (String × String)) :
    (r.content = none → (r.setStatusCode 200).status_code = 204) ∧
    ((r.setContent (some c)).content = some c) ∧
    (r.status_code = 204 → (r.setContent (some c)).status_code = 200) ∧
    (Response.init .json none 200 hs none).status_code = 204 ∧
    ((Response.init .json none 200 hs none).setContent (some c)).status_code
      = 200 := by
  refine ⟨fun h => ?_, ?_, fun h => ?_, ?_, ?_⟩
  · simp [Response.setStatusCode, h]
  · simp only [Response.setContent]
    split <;> rfl
  · simp [Response.setContent, h]
  · simp [Response.init, Response.setStatusCode]
  · simp [Response.init, Response.setStatusCode, Response.setContent]

/-- C6 witness: the coupling evaluated on a concrete response (content-less,
status 204) and concrete content. -/
theorem response_status_content_coupling_witness :
    ((plainStatusResponse 204).setStatusCode 200).status_code = 204 ∧
    ((plainStatusResponse 204).setContent (some (.str "x"))).status_code
      = 200 := by
  have h := response_status_content_coupling (plainStatusResponse 204)
    (.str "x") []
  exact ⟨h.1 rfl, h.2.2.1 rfl⟩

/-- C7 counterexample: a request whose raw body is present but malformed JSON
(the single byte `0x7b`) has a JSON view equal to the raw body, not absent —
the `except JSONDecodeError: pass` keeps the undecoded body. -/
theorem request_json_malformed_counterexample :
    (Request.init "/" "GET" [] (some "\x7b") true).json = .raw "\x7b" ∧
    ((Request.init "/" "GET" [] (some "\x7b") true).json = .pyNone → False) := by
  refine ⟨rfl, fun h => ?_⟩
  exact BodyJson.noConfusion (show BodyJson.raw "\x7b" = BodyJson.pyNone from h)

/-- C7 amended: the JSON view is absent only when the raw body is absent;
a well-formed body decodes to its JSON value, and a malformed body is returned
raw (not absent). -/
theorem request_json_spec (r : Request) :
    (r.body = none → r.json = .pyNone) ∧
    (∀ b v, r.body = some b → loads b = some v → r.json = .decoded v) ∧
    (∀ b, r.body = some b → loads b = none → r.json = .raw b) := by
  refine ⟨fun h => ?_, fun b v hb hv => ?_, fun b hb hv => ?_⟩
  · unfold Request.json
    rw [h]
  · have hred : r.json =
        match loads b with
        | some v => BodyJson.decoded v
        | none => BodyJson.raw b := by
      unfold Request.json
      rw [hb]
    rw [hred, hv]
  · have hred : r.json =
        match loads b with
        | some v => BodyJson.decoded v
        | none => BodyJson.raw b := by
      unfold Request.json
      rw [hb]
    rw [hred, hv]

/-- C7 amended, witness: the three branches evaluated on concrete requests
(no body; the well-formed body "1"; the malformed body `0x7b`). -/
theorem request_json_spec_witness :
    (Request.init "/" "GET" [] none true).json = .pyNone ∧
    (Request.init "/" "GET" [] (some "1") true).json = .decoded (.num "1") ∧
    (Request.init "/" "GET" [] (some "\x7b") true).json = .raw "\x7b" := by
  refine ⟨(request_json_spec _).1 rfl, ?_, ?_⟩
  · exact (request_json_spec _).2.1 "1" (.num "1") rfl rfl
  · exact (request_json_spec _).2.2 "\x7b" rfl rfl

/-- C5: route lookup resolves (path, method) against the nested route dicts:
an unregistered path yields the 404 error, a registered path without the
method yields the 405 error, and a registered pair yields the exact registered
route — for any well-formed table (unique keys, as registration enforces),
whatever the per-path method sets are. -/
theorem lookup_route_spec (routes : Routes) (path method : String)
    (hnd : (routes.map Prod.fst).Nodup)
    (hnd2 : ∀ pr ∈ routes, ((pr.2).map Prod.fst).Nodup) :
    ((∀ pr, (path, pr) ∉ routes) →
       lookupRoute routes path method =
         .error (HTTPException.init 404 none none none)) ∧
    (∀ pr, (path, pr) ∈ routes → (∀ r, (method, r) ∉ pr) →
       lookupRoute routes path method =
         .error (HTTPException.init 405 none none none)) ∧
    (∀ pr r, (path, pr) ∈ routes → (method, r) ∈ pr →
       lookupRoute routes path method = .ok r) := by
  refine ⟨fun habs => ?_, fun pr hpr hnom => ?_, fun pr r hpr hr => ?_⟩
  · have hget : dictGet routes path = none := by
      rw [dictGet_eq_none_iff]
      intro p hp hpk
      have hmem : (p.1, p.2) ∈ routes := by simpa using hp
      rw [hpk] at hmem
      exact habs p.2 hmem
    simp only [lookupRoute, hget]
  · have hget : dictGet routes path = some pr := dictGet_of_mem routes hnd path pr hpr
    have hget2 : dictGet pr method = none := by
      rw [dictGet_eq_none_iff]
      intro q hq hqk
      have hmem : (q.1, q.2) ∈ pr := by simpa using hq
      rw [hqk] at hmem
      exact hnom q.2 hmem
    simp only [lookupRoute, hget, hget2]
  · have hget : dictGet routes path = some pr := dictGet_of_mem routes hnd path pr hpr
    have hget2 : dictGet pr method = some r :=
      dictGet_of_mem pr (hnd2 (path, pr) hpr) method r hr
    simp only [lookupRoute, hget, hget2]

/-- C5 witness: the three lookup outcomes on a concrete table whose method
sets differ per path. -/
theorem lookup_route_spec_witness :
    lookupRoute routesNonUniform "/y" "GET" =
      .error (HTTPException.init 404 none none none) ∧
    lookupRoute routesNonUniform "/" "POST" =
      .error (HTTPException.init 405 none none none) ∧
    lookupRoute routesNonUniform "/x" "POST" = .ok routeC := by
  have h1 := lookup_route_spec routesNonUniform "/y" "GET" (by decide) (by decide)
  have h2 := lookup_route_spec routesNonUniform "/" "POST" (by decide) (by decide)
  have h3 := lookup_route_spec routesNonUniform "/x" "POST" (by decide) (by decide)
  refine ⟨h1.1 ?_, h2.2.1 [("GET", routeA)] (by decide) ?_,
    h3.2.2 [("GET", routeB), ("POST", routeC)] routeC (by decide) (by decide)⟩
  · intro pr h
    rcases List.mem_cons.mp h with h1 | h1
    · injection h1 with he _
      exact absurd he (by decide)
    · rcases List.mem_cons.mp h1 with h2 | h2
      · injection h2 with he _
        exact absurd he (by decide)
      · cases h2
  · intro r h
    rcases List.mem_cons.mp h with h1 | h1
    · injection h1 with he _
      exact absurd he (by decide)
    · cases h1

theorem foldl_schedStep_length {α β : Type} (handle : α → β) (reqs : List α)
    (schedule : List Nat) (init : List (Option β)) :
    (schedule.foldl (schedStep handle reqs) init).length = init.length := by
  induction schedule generalizing init with
  | nil => rfl
  | cons j rest ih => simp [List.foldl_cons, schedStep, ih]

theorem foldl_schedStep_get? {α β : Type} (handle : α → β) (reqs : List α)
    (schedule : List Nat) (init : List (Option β)) (i : Nat)
    (hlen : init.length = reqs.length) (hi : i < reqs.length)
    (hcov : i ∈ schedule ∨ init.get? i = some ((reqs.get? i).map handle)) :
    (schedule.foldl (schedStep handle reqs) init).get? i =
      some ((reqs.get? i).map handle) := by
  induction schedule generalizing init with
  | nil =>
      rcases hcov with h | h
      · cases h
      · exact h
  | cons j rest ih =>
      rw [List.foldl_cons]
      apply ih (schedStep handle reqs init j)
      · simp [schedStep, hlen]
      · rcases hcov with h | h
        · rcases List.mem_cons.mp h with rfl | hr
          · right
            rw [schedStep, List.get?_set_eq_of_lt]
            omega
          · left
            exact hr
        · by_cases hij : i = j
          · subst hij
            right
            rw [schedStep, List.get?_set_eq_of_lt]
            omega
          · right
            rw [schedStep, List.get?_set_ne _ _ (fun hh => hij hh.symm)]
            exact h

theorem runSchedule_eq {α β : Type} (handle : α → β) (reqs : List α)
    (schedule : List Nat) (hcov : ∀ i < reqs.length, i ∈ schedule) :
    runSchedule handle reqs schedule = reqs.map fun r => some (handle r) := by
  rw [List.ext_get?_iff]
  intro i
  by_cases hi : i < reqs.length
  · rw [runSchedule,
      foldl_schedStep_get? handle reqs schedule _ i (by simp) hi
        (Or.inl (hcov i hi)),
      List.get?_map]
    cases ho : reqs.get? i with
    | none => exact absurd (List.get?_eq_none.mp ho) (by omega)
    | some r => simp
  · have hl : (runSchedule handle reqs schedule).length = reqs.length := by
      rw [runSchedule, foldl_schedStep_length]
      simp
    rw [List.get?_eq_none.mpr (by omega),
      List.get?_eq_none.mpr (by simpa using by omega)]

theorem collectSlots_map_some {β : Type} (l : List β) :
    collectSlots (l.map fun x => some x) = some l := by
  induction l with
  | nil => rfl
  | cons x xs ih => simp [collectSlots, ih]

theorem zip_map_self {α β : Type} (f : α → β) (l : List α) :
    (l.map f).zip l = l.map fun a => (f a, a) := by
  induction l with
  | nil => rfl
  | cons x xs ih => simp [ih]

/-- C2: for a batch of N parsed requests, whatever order the concurrently
scheduled handling attempts complete in (any permutation of the task
indices), the dispatcher hands the serializer exactly N pairs in original
input order: the i-th pair is the response of the i-th request zipped with
that request. -/
theorem acall_pairs_order {α β : Type} (handle : α → β) (reqs : List α)
    (schedule : List Nat) (hperm : schedule.Perm (List.range reqs.length)) :
    acall_pairs handle reqs schedule =
      some (reqs.map fun r => (handle r, r)) := by
  have hcov : ∀ i < reqs.length, i ∈ schedule := fun i hi =>
    hperm.mem_iff.mpr (List.mem_range.mpr hi)
  unfold acall_pairs handle_requests
  rw [runSchedule_eq handle reqs schedule hcov]
  have hmm : (reqs.map fun r => some (handle r)) =
      (reqs.map handle).map (fun x => some x) := by
    rw [List.map_map]
    rfl
  rw [hmm, collectSlots_map_some]
  show some ((reqs.map handle).zip reqs) = _
  rw [zip_map_self]

/-- C2 witness: a three-request batch completed in the order 2, 0, 1 still
yields the pairs in input order. -/
theorem acall_pairs_order_witness :
    acall_pairs (fun n => n + 10) [1, 2, 3] [2, 0, 1] =
      some [(11, 1), (12, 2), (13, 3)] :=
  acall_pairs_order (fun n => n + 10) [1, 2, 3] [2, 0, 1] (by decide)

theorem failuresOf_eq (pairs : List (Response × AWSRequest))
    (h : ∀ p ∈ pairs, 400 ≤ p.1.status_code → ∃ mid, messageIdOf p.2 = .ok mid) :
    failuresOf pairs = .ok (pairs.filterMap fun p =>
      if 400 ≤ p.1.status_code then excOk (messageIdOf p.2) else none) := by
  induction pairs with
  | nil => rfl
  | cons p rest ih =>
      obtain ⟨resp, req⟩ := p
      have hrest := fun q hq => h q (List.mem_cons_of_mem _ hq)
      by_cases hs : 400 ≤ resp.status_code
      · obtain ⟨mid, hmid⟩ := h (resp, req) (List.mem_cons_self _ _) hs
        simp [failuresOf, hs, hmid, excOk, ih hrest, bind, Except.bind,
          List.filterMap_cons, pure, Except.pure]
      · simp only [failuresOf, hs, if_false, List.filterMap_cons, ite_false]
        simpa [hs] using ih hrest

theorem filter_ids_nil_iff (pairs : List (Response × AWSRequest))
    (h : ∀ p ∈ pairs, 400 ≤ p.1.status_code → ∃ mid, messageIdOf p.2 = .ok mid) :
    (pairs.filterMap fun p =>
        if 400 ≤ p.1.status_code then excOk (messageIdOf p.2) else none) = []
      ↔ ∀ p ∈ pairs, p.1.status_code < 400 := by
  induction pairs with
  | nil => simp
  | cons p rest ih =>
      have hrest := fun q hq => h q (List.mem_cons_of_mem _ hq)
      by_cases hs : 400 ≤ p.1.status_code
      · obtain ⟨mid, hmid⟩ := h p (List.mem_cons_self _ _) hs
        simp only [List.filterMap_cons, hs, ite_true, hmid, excOk]
        constructor
        · intro hfalse
          cases hfalse
        · intro hall
          exact absurd (hall p (List.mem_cons_self _ _)) (by omega)
      · simp only [List.filterMap_cons, hs, ite_false]
        rw [ih hrest]
        constructor
        · intro hall q hq
          rcases List.mem_cons.mp hq with rfl | hq2
          · omega
          · exact hall q hq2
        · intro hall q hq
          exact hall q (List.mem_cons_of_mem _ hq)

/-- C1: for a queue-style (acknowledgment-aware) batch, the serializer
collects the correlation ids of exactly the pairs whose status is at least 400
(in order); a non-empty failure list is returned as a `batchItemFailures`
payload listing exactly those ids, and an all-success batch returns `None`
(full-batch acknowledgment), never an empty list. -/
theorem serialize_event_sqs_spec (pairs : List (Response × AWSRequest))
    (ids : List JSONValue)
    (hids : ids = pairs.filterMap fun p =>
      if 400 ≤ p.1.status_code then excOk (messageIdOf p.2) else none)
    (h : ∀ p ∈ pairs, 400 ≤ p.1.status_code → ∃ mid, messageIdOf p.2 = .ok mid) :
    failuresOf pairs = .ok ids ∧
    (ids = [] ↔ ∀ p ∈ pairs, p.1.status_code < 400) ∧
    (ids = [] → serialize_event_sqs pairs = .ok none) ∧
    (ids ≠ [] → serialize_event_sqs pairs =
      .ok (some (SQSAck.mk (ids.map FailureItem.mk)))) := by
  have hfail : failuresOf pairs = .ok ids := by
    rw [hids]
    exact failuresOf_eq pairs h
  refine ⟨hfail, ?_, fun hnil => ?_, fun hne => ?_⟩
  · rw [hids]
    exact filter_ids_nil_iff pairs h
  · simp only [serialize_event_sqs, bind, Except.bind, hfail, hnil]
    rfl
  · obtain ⟨i, tl, hcons⟩ := List.exists_cons_of_ne_nil hne
    simp only [serialize_event_sqs, bind, Except.bind, hfail, hcons]
    rfl

/-- C1 witness: a four-item queue batch whose second and third items fail
reports exactly their ids; an all-success batch produces `None`. -/
theorem serialize_event_sqs_spec_witness :
    serialize_event_sqs
      [(plainStatusResponse 204, sqsPairRequest "1"),
       (plainStatusResponse 400, sqsPairRequest "2"),
       (plainStatusResponse 500, sqsPairRequest "3"),
       (plainStatusResponse 204, sqsPairRequest "4")] =
      .ok (some (SQSAck.mk
        [FailureItem.mk (.str "2"), FailureItem.mk (.str "3")])) ∧
    serialize_event_sqs
      [(plainStatusResponse 204, sqsPairRequest "1"),
       (plainStatusResponse 200, sqsPairRequest "2")] = .ok none := by
  constructor
  · have h := serialize_event_sqs_spec
      [(plainStatusResponse 204, sqsPairRequest "1"),
       (plainStatusResponse 400, sqsPairRequest "2"),
       (plainStatusResponse 500, sqsPairRequest "3"),
       (plainStatusResponse 204, sqsPairRequest "4")]
      [.str "2", .str "3"] rfl
      (by intro p hp
          fin_cases hp <;> exact fun _ => ⟨_, rfl⟩)
    exact h.2.2.2 (List.cons_ne_nil _ _)
  · have h := serialize_event_sqs_spec
      [(plainStatusResponse 204, sqsPairRequest "1"),
       (plainStatusResponse 200, sqsPairRequest "2")]
      [] rfl
      (by intro p hp
          fin_cases hp <;> exact fun _ => ⟨_, rfl⟩)
    exact h.2.2.1 rfl

/-- C9: for a non-empty batch originating from a topic-style (SNS) or
broker-style (MQ) trigger, batch serialization returns `None` (no
acknowledgment payload) whatever the per-item responses are: no serializer
exists for those suffixes and the `AttributeError` handler acknowledges
silently. -/
theorem serialize_responses_topic_broker (resp0 : Response) (req0 : AWSRequest)
    (rest : List (Response × AWSRequest))
    (hsrc : dictGet req0.event "eventSource" = some (.str "aws:sns") ∨
            dictGet req0.event "eventSource" = some (.str "aws:mq")) :
    serialize_responses ((resp0, req0) :: rest) = .ok none := by
  rcases hsrc with h | h <;>
    · simp only [serialize_responses, getKey, h, bind, Except.bind]
      rfl

/-- C9 witness: one-record SNS and MQ batches with a failing (500) response
still acknowledge silently. -/
theorem serialize_responses_topic_broker_witness :
    serialize_responses [(plainStatusResponse 500, snsPairRequest "1")]
      = .ok none ∧
    serialize_responses [(plainStatusResponse 500, mqPairRequest "1")]
      = .ok none :=
  ⟨serialize_responses_topic_broker _ _ [] (Or.inl rfl),
   serialize_responses_topic_broker _ _ [] (Or.inr rfl)⟩

/-- C3: an unhandled fault (neither an HTTP error nor a validation error) is
recorded in the log scope with the classifier-derived status and message;
with `raises_exceptions = true` the exception re-raises out of the dispatcher
(after recording), with `raises_exceptions = false` it is fully absorbed and
the error response is returned so the rest of the batch is unaffected; the
error response carries the classifier-derived status, and the default
classifier maps any exception to 500. -/
theorem handle_request_fault_spec
    (classify : PyException → Nat × Option JSONValue)
    (request : Request) (exc : PyException) :
    (request.raises_exceptions = true →
       handle_request classify request (.fault exc) =
         (.error exc,
          { status_code := some (classify exc).1
            error_detail := (classify exc).2 })) ∧
    (request.raises_exceptions = false →
       handle_request classify request (.fault exc) =
         (.ok (mkJSONResponse ((classify exc).2.map .jval) (classify exc).1),
          { status_code := some (classify exc).1
            error_detail := (classify exc).2 })) ∧
    (400 ≤ (classify exc).1 →
       (mkJSONResponse ((classify exc).2.map .jval) (classify exc).1).status_code
         = (classify exc).1) ∧
    (defaultClassifier exc).1 = 500 := by
  refine ⟨fun hflag => ?_, fun hflag => ?_, fun h400 => ?_, rfl⟩
  · simp [handle_request, hflag]
  · simp [handle_request, hflag]
  · simp only [mkJSONResponse, Response.init, Response.setStatusCode]
    rw [if_neg fun hP => absurd hP.2 (by omega)]

/-- C3 witness: the two flag values evaluated on a concrete request, fault
and the default classifier. -/
theorem handle_request_fault_spec_witness :
    handle_request defaultClassifier (Request.init "/" "GET" [] none true)
        (.fault (PyException.mk "ValueError" "Invalid value.")) =
      (.error (PyException.mk "ValueError" "Invalid value."),
       { status_code := some 500
         error_detail := some (.str "Internal Server Error") }) ∧
    handle_request defaultClassifier (Request.init "/" "GET" [] none false)
        (.fault (PyException.mk "ValueError" "Invalid value.")) =
      (.ok (mkJSONResponse (some (.jval (.str "Internal Server Error"))) 500),
       { status_code := some 500
         error_detail := some (.str "Internal Server Error") }) := by
  constructor
  · exact (handle_request_fault_spec defaultClassifier _ _).1 rfl
  · exact (handle_request_fault_spec defaultClassifier _ _).2.1 rfl

theorem charToSextet_sextetToChar :
    ∀ n, n < 64 → charToSextet (sextetToChar n) = some n := by decide

theorem sextetToChar_ne_pad : ∀ n, n < 64 → sextetToChar n ≠ '=' := by decide

theorem b64decode_b64encode (l : List Nat) (h : ∀ x ∈ l, x < 256) :
    b64decode (b64encode l) = some l := by
  match l with
  | [] => rfl
  | [a] =>
      have ha : a < 256 := h a (by simp)
      have h1 := charToSextet_sextetToChar (a / 4) (by omega)
      have h2 := charToSextet_sextetToChar (a % 4 * 16) (by omega)
      simp only [b64encode, b64decode, h1, h2]
      simp
      omega
  | [a, b] =>
      have ha : a < 256 := h a (by simp)
      have hb : b < 256 := h b (by simp)
      have h1 := charToSextet_sextetToChar (a / 4) (by omega)
      have h2 := charToSextet_sextetToChar (a % 4 * 16 + b / 16) (by omega)
      have h3 := charToSextet_sextetToChar (b % 16 * 4) (by omega)
      have hne3 := sextetToChar_ne_pad (b % 16 * 4) (by omega)
      simp only [b64encode, b64decode, h1, h2, h3, if_neg hne3]
      simp
      omega
  | a :: b :: c :: rest =>
      have ha : a < 256 := h a (by simp)
      have hb : b < 256 := h b (by simp)
      have hc : c < 256 := h c (by simp)
      have ih := b64decode_b64encode rest (fun x hx => h x (by simp [hx]))
      have h1 := charToSextet_sextetToChar (a / 4) (by omega)
      have h2 := charToSextet_sextetToChar (a % 4 * 16 + b / 16) (by omega)
      have h3 := charToSextet_sextetToChar (b % 16 * 4 + c / 64) (by omega)
      have h4 := charToSextet_sextetToChar (c % 64) (by omega)
      have hne3 := sextetToChar_ne_pad (b % 16 * 4 + c / 64) (by omega)
      have hne4 := sextetToChar_ne_pad (c % 64) (by omega)
      simp only [b64encode, b64decode, h1, h2, h3, h4, if_neg hne3,
        if_neg hne4, ih]
      simp
      omega
termination_by l.length

/-- C8: a direct-invocation response serializes to an envelope whose
`statusCode` is the status as a string and whose `headers` are the rendered
response's headers; `isBase64Encoded` is true and the body base64-encoded
exactly when the rendered body is raw binary (and decoding the produced body
recovers the original bytes), while a textual body passes through unencoded
with the flag false. -/
theorem serialize_response_spec (resp : Response) (rendered : Option Content)
    (r2 : Response) (hrender : resp.bodyStep = .ok (rendered, r2)) :
    ∃ env, serialize_response resp = .ok env ∧
      env.statusCode = toString r2.status_code ∧
      env.headers = r2.headers ∧
      (∀ b, rendered = some (.bytes b) →
         env.isBase64Encoded = true ∧
         env.body = some (.str (b64encodeStr b)) ∧
         ((∀ x ∈ b, x < 256) → b64decodeStr (b64encodeStr b) = some b)) ∧
      (∀ s, rendered = some (.str s) →
         env.isBase64Encoded = false ∧ env.body = some (.str s)) ∧
      (rendered = none → env.isBase64Encoded = false ∧ env.body = none) ∧
      (env.isBase64Encoded = true → ∃ b, rendered = some (.bytes b)) := by
  unfold serialize_response
  rw [hrender]
  simp only [bind, Except.bind]
  rcases rendered with _ | c
  · refine ⟨_, rfl, rfl, rfl, ?_, ?_, ?_, ?_⟩
    · intro b hb
      cases hb
    · intro s hs
      cases hs
    · intro _
      exact ⟨rfl, rfl⟩
    · intro hflag
      cases hflag
  · cases c with
    | str s =>
        refine ⟨_, rfl, rfl, rfl, ?_, ?_, ?_, ?_⟩
        · intro b hb
          simp at hb
        · intro s2 hs
          simp only [Option.some.injEq, Content.str.injEq] at hs
          subst hs
          exact ⟨rfl, rfl⟩
        · intro hnone
          cases hnone
        · intro hflag
          cases hflag
    | bytes b =>
        refine ⟨_, rfl, rfl, rfl, ?_, ?_, ?_, ?_⟩
        · intro b2 hb
          simp only [Option.some.injEq, Content.bytes.injEq] at hb
          subst hb
          refine ⟨rfl, rfl, fun hbound => ?_⟩
          show b64decode (b64encode b) = some b
          exact b64decode_b64encode b hbound
        · intro s hs
          simp at hs
        · intro hnone
          cases hnone
        · intro _
          exact ⟨b, rfl⟩
    | jval v =>
        refine ⟨_, rfl, rfl, rfl, ?_, ?_, ?_, ?_⟩
        · intro b hb
          simp at hb
        · intro s hs
          simp at hs
        · intro hnone
          cases hnone
        · intro hflag
          cases hflag

/-- C8 witness: the binary response "test" serializes base64-encoded with the
flag set and decodes back to the original bytes; the textual response passes
through unencoded. -/
theorem serialize_response_spec_witness :
    b64decodeStr (b64encodeStr [116, 101, 115, 116])
      = some [116, 101, 115, 116] ∧
    serialize_response binResp =
      .ok ⟨some (.str "dGVzdA=="), "200", binRespRendered.headers, true⟩ ∧
    serialize_response strResp =
      .ok ⟨some (.str "hello"), "200", strRespRendered.headers, false⟩ := by
  obtain ⟨env, henv, hsc, hh, hbytes, -, -, -⟩ :=
    serialize_response_spec binResp (some (.bytes [116, 101, 115, 116]))
      binRespRendered rfl
  obtain ⟨hflag, hbody, hrt⟩ := hbytes _ rfl
  refine ⟨hrt (by decide), ?_, ?_⟩
  · rw [henv]
    obtain ⟨body, sc, hd, flag⟩ := env
    simp only at hsc hh hflag hbody
    rw [hsc, hh, hflag, hbody]
    rfl
  · obtain ⟨env2, henv2, hsc2, hh2, -, hstr, -, -⟩ :=
      serialize_response_spec strResp (some (.str "hello"))
        strRespRendered rfl
    obtain ⟨hflag2, hbody2⟩ := hstr _ rfl
    rw [henv2]
    obtain ⟨body, sc, hd, flag⟩ := env2
    simp only at hsc2 hh2 hflag2 hbody2
    rw [hsc2, hh2, hflag2, hbody2]
    rfl

theorem exc_bind_ok {α β : Type} (x : Except PyErr α) (f : α → Except PyErr β)
    (r : β) (h : (x >>= f) = .ok r) : ∃ a, x = .ok a ∧ f a = .ok r := by
  cases x with
  | error e => simp [bind, Except.bind] at h
  | ok a => exact ⟨a, rfl, by simpa [bind, Except.bind] using h⟩

theorem AWSRequest_init_flag (event : Dict) (b : Bool) (r : AWSRequest)
    (h : AWSRequest.init event b = .ok r) : r.base.raises_exceptions = b := by
  unfold AWSRequest.init at h
  obtain ⟨rc, hrc, h⟩ := exc_bind_ok _ _ _ h
  obtain ⟨mp, hmp, h⟩ := exc_bind_ok _ _ _ h
  obtain ⟨hfields, hhf, h⟩ := exc_bind_ok _ _ _ h
  simp only [pure, Except.pure, Except.ok.injEq] at h
  subst h
  rfl

theorem requestOfRecordEvent_flag (re : Dict) (r : AWSRequest)
    (h : requestOfRecordEvent re = .ok r) :
    r.base.raises_exceptions =
      (match dictGet re "eventRaisesExceptions" with
       | some v => truthy v
       | none => true) := by
  unfold requestOfRecordEvent at h
  exact AWSRequest_init_flag re _ r h

theorem sqsRecordEvent_flag (record : JSONValue) (re : Dict)
    (h : sqsRecordEvent record = .ok re) :
    dictGet re "eventRaisesExceptions" = some (.bool false) := by
  unfold sqsRecordEvent at h
  obtain ⟨robj, hro, h⟩ := exc_bind_ok _ _ _ h
  obtain ⟨bodyStr, hbs, h⟩ := exc_bind_ok _ _ _ h
  obtain ⟨decoded, hdec, h⟩ := exc_bind_ok _ _ _ h
  obtain ⟨re2, hre2, h⟩ := exc_bind_ok _ _ _ h
  simp only [pure, Except.pure, Except.ok.injEq] at h
  subst h
  exact dictGet_dictSet_self _ _ _

theorem parse_event_sqs_flags (event : Dict) (records : List Dict)
    (h : parse_event_sqs event = .ok records) :
    ∀ re ∈ records, dictGet re "eventRaisesExceptions" = some (.bool false) := by
  unfold parse_event_sqs at h
  obtain ⟨rs, hrs, h⟩ := exc_bind_ok _ _ _ h
  intro re hre
  obtain ⟨record, hrec, hok⟩ := mapExc_ok_mem _ _ _ h re hre
  exact sqsRecordEvent_flag record re hok

theorem parseBatch_not_single (event : Dict) (es : JSONValue) (r : AWSRequest)
    (h : parseBatch event es = .ok (.single r)) : False := by
  unfold parseBatch at h
  obtain ⟨s, hs, h⟩ := exc_bind_ok _ _ _ h
  obtain ⟨suffix, hsu, h⟩ := exc_bind_ok _ _ _ h
  obtain ⟨recordEvents, hre, h⟩ := exc_bind_ok _ _ _ h
  obtain ⟨rs, hrs, h⟩ := exc_bind_ok _ _ _ h
  simp only [pure, Except.pure, Except.ok.injEq] at h
  exact ParsedRequests.noConfusion h

/-- C4 counterexample: a topic-style (SNS) one-record batch whose embedded
payload does not set `eventRaisesExceptions` parses to a request with
`raises_exceptions = true`, not `false`: only the SQS record parser forces
the flag. -/
theorem parse_request_sns_counterexample :
    (parse_request snsOneRecordEvent).map batchFlags = .ok [true] ∧
    ((parse_request snsOneRecordEvent).map batchFlags = .ok [false] → False) := by
  refine ⟨rfl, fun h => ?_⟩
  have h2 : (Except.ok [true] : Except PyErr (List Bool)) = .ok [false] := h
  injection h2 with h3
  injection h3 with h4 h5
  cases h4

/-- C4 amended: a direct-invocation request has `raises_exceptions = true`;
queue-style (SQS) records are tagged `eventRaisesExceptions = false` so their
requests have the flag false; for every batch record the flag is the
truthiness of the record event's own `eventRaisesExceptions` entry (default
true), and topic-style (SNS) and broker-style (MQ) record events carry
exactly the entry of their embedded payload — nothing forces it false. -/
theorem parse_raises_exceptions_spec :
    (∀ event r, parse_request event = .ok (.single r) →
       r.base.raises_exceptions = true) ∧
    (∀ event records re r, parse_event_sqs event = .ok records →
       re ∈ records → requestOfRecordEvent re = .ok r →
       r.base.raises_exceptions = false) ∧
    (∀ re r, requestOfRecordEvent re = .ok r →
       r.base.raises_exceptions =
         (match dictGet re "eventRaisesExceptions" with
          | some v => truthy v
          | none => true)) ∧
    (∀ robj snsObj msgStr msgFields re,
       dictGet robj "Sns" = some (.obj snsObj) →
       dictGet snsObj "Message" = some (.str msgStr) →
       loads msgStr = some (.obj msgFields) →
       snsRecordEvent (.obj robj) = .ok re →
       dictGet re "eventRaisesExceptions" =
         dictGet msgFields "eventRaisesExceptions") ∧
    (∀ robj dataStr msgFields re,
       dictGet robj "data" = some (.str dataStr) →
       loads dataStr = some (.obj msgFields) →
       mqRecordEvent (.obj robj) = .ok re →
       dictGet re "eventRaisesExceptions" =
         dictGet msgFields "eventRaisesExceptions") := by
  refine ⟨?_, ?_, ?_, ?_, ?_⟩
  · intro event r h
    unfold parse_request at h
    by_cases hrc : (dictGet event "requestContext").isSome
    · rw [if_pos hrc] at h
      obtain ⟨r0, hr0, h⟩ := exc_bind_ok _ _ _ h
      simp only [pure, Except.pure, Except.ok.injEq,
        ParsedRequests.single.injEq] at h
      subst h
      exact AWSRequest_init_flag event true r0 hr0
    · rw [if_neg hrc] at h
      exfalso
      split at h
      · exact parseBatch_not_single _ _ _ h
      · cases hres : recordsEventSource event with
        | ok o =>
            cases o with
            | some es =>
                rw [hres] at h
                exact parseBatch_not_single _ _ _ h
            | none =>
                rw [hres] at h
                injection h with h2
                exact ParsedRequests.noConfusion h2
        | error e =>
            rw [hres] at h
            exact Except.noConfusion h
  · intro event records re r hparse hmem hreq
    rw [requestOfRecordEvent_flag re r hreq,
      parse_event_sqs_flags event records hparse re hmem]
    rfl
  · intro re r h
    exact requestOfRecordEvent_flag re r h
  · intro robj snsObj msgStr msgFields re hsns hmsg hload h
    unfold snsRecordEvent at h
    obtain ⟨robj2, hro, h⟩ := exc_bind_ok _ _ _ h
    simp only [asObj, Except.ok.injEq] at hro
    subst hro
    obtain ⟨snsObj2, hso, h⟩ := exc_bind_ok _ _ _ h
    obtain ⟨v1, hv1, hv1o⟩ := exc_bind_ok _ _ _ hso
    simp only [getKey, hsns, Except.ok.injEq] at hv1
    subst hv1
    simp only [asObj, Except.ok.injEq] at hv1o
    subst hv1o
    obtain ⟨msgStr2, hms, h⟩ := exc_bind_ok _ _ _ h
    obtain ⟨v2, hv2, hv2o⟩ := exc_bind_ok _ _ _ hms
    simp only [getKey, hmsg, Except.ok.injEq] at hv2
    subst hv2
    simp only [asStr, Except.ok.injEq] at hv2o
    subst hv2o
    obtain ⟨decoded, hdec, h⟩ := exc_bind_ok _ _ _ h
    simp only [loadsExc, hload, Except.ok.injEq] at hdec
    subst hdec
    obtain ⟨re2, hre2, h⟩ := exc_bind_ok _ _ _ h
    simp only [asObj, Except.ok.injEq] at hre2
    subst hre2
    simp only [pure, Except.pure, Except.ok.injEq] at h
    subst h
    rw [dictGet_dictSet_ne _ _ _ _ (by decide),
      dictGet_dictSet_ne _ _ _ _ (by decide)]
  · intro robj dataStr msgFields re hdata hload h
    unfold mqRecordEvent at h
    obtain ⟨robj2, hro, h⟩ := exc_bind_ok _ _ _ h
    simp only [asObj, Except.ok.injEq] at hro
    subst hro
    obtain ⟨dataStr2, hds, h⟩ := exc_bind_ok _ _ _ h
    obtain ⟨v1, hv1, hv1o⟩ := exc_bind_ok _ _ _ hds
    simp only [getKey, hdata, Except.ok.injEq] at hv1
    subst hv1
    simp only [asStr, Except.ok.injEq] at hv1o
    subst hv1o
    obtain ⟨decoded, hdec, h⟩ := exc_bind_ok _ _ _ h
    simp only [loadsExc, hload, Except.ok.injEq] at hdec
    subst hdec
    obtain ⟨re2, hre2, h⟩ := exc_bind_ok _ _ _ h
    simp only [asObj, Except.ok.injEq] at hre2
    subst hre2
    simp only [pure, Except.pure, Except.ok.injEq] at h
    subst h
    rw [dictGet_dictSet_ne _ _ _ _ (by decide),
      dictGet_dictSet_ne _ _ _ _ (by decide)]

/-- C4 amended witness: the flag outcomes evaluated end to end on concrete
direct, SQS, and SNS events. -/
theorem parse_raises_exceptions_spec_witness :
    directReq.base.raises_exceptions = true ∧
    sqsReq1.base.raises_exceptions = false ∧
    snsReq1.base.raises_exceptions =
      (match dictGet snsRe1 "eventRaisesExceptions" with
       | some v => truthy v
       | none => true) ∧
    dictGet snsRe1 "eventRaisesExceptions" =
      dictGet directEvent "eventRaisesExceptions" := by
  refine ⟨?_, ?_, ?_, ?_⟩
  · exact parse_raises_exceptions_spec.1 directEvent directReq rfl
  · exact parse_raises_exceptions_spec.2.1 sqsTwoRecordEvent [sqsRe1, sqsRe2]
      sqsRe1 sqsReq1 rfl (List.mem_cons_self _ _) rfl
  · exact parse_raises_exceptions_spec.2.2.1 snsRe1 snsReq1 rfl
  · exact parse_raises_exceptions_spec.2.2.2.1 snsRecord1
      [("Message", .str gwPayload)] gwPayload directEvent snsRe1
      rfl rfl rfl rfl

end AioLambdaApi
